import Mathlib

/-!
Verification of the internal-field parser of `scripts/csv_conversion.py`
(OpenFOAM field-file to CSV converter).

The Python source is shallowly embedded: a file is a list of lines, each
line a `List Char`; the three parse functions
(`parse_internal_field_lines`, `parse_scalar_field`, `parse_vector_field`)
become total Lean functions returning `Except ParseError _`, where the
error kinds follow the specification's taxonomy and `indexError` stands
for a Python `IndexError` escaping from unguarded list indexing.
Python `float()` applied to a token is modelled exactly (no binary
rounding) by `parseFloat?`, producing a finite decimal `mant * 10 ^ exp10`
value, a signed infinity, or a NaN.
-/

namespace CsvConversion

/-- A line of text, as a list of characters (Python `str`). -/
abbrev Str := List Char

/-- The whitespace set of Python `str.strip()` / regex `\s` (ASCII range). -/
def isSpace (c : Char) : Bool :=
  c == ' ' || c == '\t' || c == '\n' || c == '\r' || c == '\x0b' || c == '\x0c'

/-- Remove the longest suffix whose characters satisfy `p` (Python `rstrip`). -/
def dropRightWhile (p : Char → Bool) (s : Str) : Str :=
  (s.reverse.dropWhile p).reverse

/-- Python `str.strip()`: remove leading and trailing whitespace. -/
def trim (s : Str) : Str :=
  dropRightWhile isSpace (s.dropWhile isSpace)

/-- Python `line.replace(";", " ")`: replace every semicolon by a space. -/
def semiToSpace (s : Str) : Str :=
  s.map (fun c => if c == ';' then ' ' else c)

/-- A parenthesis character, either kind. -/
def isParen (c : Char) : Bool := c == '(' || c == ')'

/-- Python `str.strip("()")`: remove leading and trailing parenthesis characters. -/
def stripParens (s : Str) : Str :=
  dropRightWhile isParen (s.dropWhile isParen)

/-- Python `str.rstrip(";")`: remove trailing semicolons. -/
def rstripSemi (s : Str) : Str :=
  dropRightWhile (fun c => c == ';') s

/-- Python `ln[1:-1]` applied when `ln.startswith("(") and ln.endswith(")")`:
strip exactly one leading and one trailing parenthesis, else leave unchanged. -/
def stripOuterParens (s : Str) : Str :=
  match s with
  | '(' :: rest => if rest.getLast? = some ')' then rest.dropLast else '(' :: rest
  | _ => s

/-- Helper for `splitWS`: accumulate the current (reversed) token. -/
def splitWSAux : Str → Str → List Str
  | [], acc => if acc.isEmpty then [] else [acc.reverse]
  | c :: rest, acc =>
    if isSpace c then
      if acc.isEmpty then splitWSAux rest [] else acc.reverse :: splitWSAux rest []
    else splitWSAux rest (c :: acc)

/-- Python `str.split()`: split on runs of whitespace, dropping empty tokens. -/
def splitWS (s : Str) : List Str := splitWSAux s []

/-- Python substring test `pat in s`. -/
def hasSubstr (pat : Str) : Str → Bool
  | [] => pat.isEmpty
  | c :: rest => if pat.isPrefixOf (c :: rest) then true else hasSubstr pat rest

/-- Python `s.split(pat, 1)[1]`: the text after the first occurrence of `pat`
(meaningful only when `pat` is a nonempty substring of `s`). -/
def afterFirst (pat : Str) : Str → Str
  | [] => []
  | c :: rest =>
    if pat.isPrefixOf (c :: rest) then (c :: rest).drop pat.length
    else afterFirst pat rest

/-- The `internalField` keyword searched for by the locator. -/
def internalFieldMark : Str := "internalField".toList

/-- The `uniform` marker substring. -/
def uniformMark : Str := "uniform".toList

/-- The `nonuniform` marker substring (contains `uniform` as an infix). -/
def nonuniformMark : Str := "nonuniform".toList

/-- A line containing the `internalField` marker. -/
def containsMarker (l : Str) : Bool := hasSubstr internalFieldMark l

/-- The regex `^\s*\d+\s*$` of the source: the line is digits with only
surrounding whitespace. -/
def isCountLine (s : Str) : Bool :=
  !(trim s).isEmpty && (trim s).all Char.isDigit

/-- A line whose trimmed content is exactly the opening delimiter `(`. -/
def isOpenLine (s : Str) : Bool := trim s == ['(']

/-- A trimmed line that is exactly the closing delimiter `)` or `);`. -/
def isTermLine (t : Str) : Bool := t == [')'] || t == [')', ';']

/-- A trimmed line starting with the comment marker `//`. -/
def isCommentLine (t : Str) : Bool := ['/', '/'].isPrefixOf t

/-- A trimmed line kept by the collection loop: not empty and not a comment. -/
def keepLine (t : Str) : Bool := !(t.isEmpty || isCommentLine t)

/-- The data-collection loop of `parse_internal_field_lines`: walk the lines
after the opening `(`, stop (exclusively) at the first terminator line,
skip blank and comment lines, keep all others trimmed. -/
def collectData : List Str → List Str
  | [] => []
  | l :: rest =>
    let t := trim l
    if isTermLine t then []
    else if t.isEmpty || isCommentLine t then collectData rest
    else t :: collectData rest

/-- The forward scans of the source (`for i in range(start, len(lines))`):
first line satisfying `p`, returned with the remaining suffix. -/
def findFrom (p : Str → Bool) : List Str → Option (Str × List Str)
  | [] => none
  | l :: rest => if p l then some (l, rest) else findFrom p rest

/-- Error kinds raised by the parse functions (`ValueError` messages of the
source, classified per the specification's taxonomy), plus `indexError`
for a Python `IndexError` escaping from unguarded `[0]` indexing. -/
inductive ParseError where
  | missingEntry
  | missingCount
  | missingOpenDelimiter
  | arityMismatch
  | malformedNumber
  | indexError
deriving DecidableEq, Repr

instance {ε α : Type} [DecidableEq ε] [DecidableEq α] : DecidableEq (Except ε α) :=
  fun a b =>
    match a, b with
    | .error e, .error f =>
      match decEq e f with
      | .isTrue h => .isTrue (by rw [h])
      | .isFalse h => .isFalse (fun hh => h (by injection hh))
    | .ok x, .ok y =>
      match decEq x y with
      | .isTrue h => .isTrue (by rw [h])
      | .isFalse h => .isFalse (fun hh => h (by injection hh))
    | .error _, .ok _ => .isFalse (fun hh => Except.noConfusion hh)
    | .ok _, .error _ => .isFalse (fun hh => Except.noConfusion hh)

/-- The exact value Python `float()` gives a token: a finite decimal
`finite mant exp10` meaning `mant * 10 ^ exp10` (no binary rounding;
distinct spellings of the same value, such as `4.2` and `4.20`, keep
distinct representations, which is adequate here since every comparison
is between values parsed from the same literal or against a concrete
expected spelling; the unobservable signs of `-0.0` and of a NaN are
dropped), a signed infinity, or a NaN. -/
inductive PyFloat where
  | finite (mant : Int) (exp10 : Int)
  | inf (neg : Bool)
  | nan
deriving DecidableEq, Repr

/-- The rational value denoted by a finite `PyFloat`
(`none` for an infinity or a NaN). -/
def PyFloat.toRat : PyFloat → Option ℚ
  | .finite m e => some ((m : ℚ) * (10 : ℚ) ^ e)
  | _ => none

/-- Numeric value of a digit string (most significant first). -/
def natOfDigits (s : Str) : Nat :=
  s.foldl (fun n c => n * 10 + (c.toNat - 48)) 0

/-- Helper for `isValidDigitPart`: rest of a digit group after a digit;
an underscore must be followed by a digit. -/
def digitPartRest : Str → Bool
  | [] => true
  | '_' :: r =>
    match r with
    | c :: r2 => c.isDigit && digitPartRest r2
    | [] => false
  | c :: r => c.isDigit && digitPartRest r

/-- A `digitpart` of Python's float grammar: one or more digits, with
single underscores allowed strictly between digits (`1_0` is valid;
`_1`, `1_`, `1__0` are not). -/
def isValidDigitPart : Str → Bool
  | [] => false
  | c :: r => c.isDigit && digitPartRest r

/-- The digits of a digit group, underscores dropped. -/
def digitsOf (s : Str) : Str := s.filter Char.isDigit

/-- Parse the optional exponent suffix of a float literal:
empty, or `e`/`E` followed by an optionally signed digit part. -/
def parseExpSuffix : Str → Option Int
  | [] => some 0
  | c :: r =>
    if c == 'e' || c == 'E' then
      match r with
      | '+' :: r2 =>
        if isValidDigitPart r2 then some (natOfDigits (digitsOf r2) : Int) else none
      | '-' :: r2 =>
        if isValidDigitPart r2 then some (-(natOfDigits (digitsOf r2) : Int)) else none
      | r2 =>
        if isValidDigitPart r2 then some (natOfDigits (digitsOf r2) : Int) else none
    else none

/-- Python `float()` applied to a (whitespace-free, ASCII) token:
an optional sign, then either `inf`/`infinity`/`nan` in any letter case,
or a decimal literal — digit parts that may use single underscores
between digits, an optional decimal point (at least one digit overall)
and an optional exponent. Returns `none` exactly where `float()` raises
`ValueError`. -/
def parseFloat? (s : Str) : Option PyFloat :=
  let signSplit : Bool × Str :=
    match s with
    | '+' :: r => (false, r)
    | '-' :: r => (true, r)
    | r => (false, r)
  let neg := signSplit.1
  let rest := signSplit.2
  let low := rest.map Char.toLower
  if low == ("inf".toList) || low == ("infinity".toList) then some (.inf neg)
  else if low == ("nan".toList) then some .nan
  else
    let sgn : Int := if neg then -1 else 1
    let mantPart := rest.takeWhile (fun c => !(c == 'e' || c == 'E'))
    let expPart := rest.dropWhile (fun c => !(c == 'e' || c == 'E'))
    match parseExpSuffix expPart with
    | none => none
    | some e =>
      let intPart := mantPart.takeWhile (fun c => !(c == '.'))
      let dotPart := mantPart.dropWhile (fun c => !(c == '.'))
      match dotPart with
      | [] =>
        if isValidDigitPart intPart then
          some (.finite (sgn * (natOfDigits (digitsOf intPart) : Int)) e)
        else none
      | _ :: frac =>
        if (intPart.isEmpty || isValidDigitPart intPart)
            && (frac.isEmpty || isValidDigitPart frac)
            && !(intPart.isEmpty && frac.isEmpty) then
          some (.finite (sgn * (natOfDigits (digitsOf intPart ++ digitsOf frac) : Int))
            (e - (digitsOf frac).length))
        else none

/-- Sanity of the `float()` model on the grammar's corners: the special
spellings `inf`/`Infinity`/`nan` are accepted in any letter case with an
optional sign, underscores group digits (only singly, strictly between
digits), and near-miss spellings are rejected. -/
theorem parseFloat?_spellings :
    parseFloat? ("inf".toList) = some (.inf false)
    ∧ parseFloat? ("+Inf".toList) = some (.inf false)
    ∧ parseFloat? ("-Infinity".toList) = some (.inf true)
    ∧ parseFloat? ("NaN".toList) = some .nan
    ∧ parseFloat? ("-nan".toList) = some .nan
    ∧ parseFloat? ("1_0".toList) = some (.finite 10 0)
    ∧ parseFloat? ("1_0.5_5e1_0".toList) = some (.finite 1055 8)
    ∧ parseFloat? ("1__0".toList) = none
    ∧ parseFloat? ("_1".toList) = none
    ∧ parseFloat? ("1_".toList) = none
    ∧ parseFloat? ("infx".toList) = none
    ∧ parseFloat? ("n an".toList) = none := by decide

/-- `float(t)` as a fallible step: `ValueError` becomes `malformedNumber`. -/
def floatOf (t : Str) : Except ParseError PyFloat :=
  match parseFloat? t with
  | none => .error .malformedNumber
  | some x => .ok x

/-- Embedding of `parse_internal_field_lines` of `scripts/csv_conversion.py`:
locate the first `internalField` line; classify it `Uniform` when it
contains `uniform` but not `nonuniform`, returning the text after the
`uniform` marker with semicolons replaced by spaces and whitespace
stripped; otherwise scan forward for the count line (digits only), then
for the opening `(` line, and collect the data lines after it. -/
def parse_internal_field_lines (lines : List Str) : Except ParseError (List Str × Bool) :=
  match findFrom containsMarker lines with
  | none => .error .missingEntry
  | some (line, rest) =>
    if hasSubstr uniformMark line && !hasSubstr nonuniformMark line then
      .ok ([trim (semiToSpace (afterFirst uniformMark line))], true)
    else
      match findFrom isCountLine (line :: rest) with
      | none => .error .missingCount
      | some (_, afterCount) =>
        match findFrom isOpenLine afterCount with
        | none => .error .missingOpenDelimiter
        | some (_, afterOpen) => .ok (collectData afterOpen, false)

/-- Cleaning step of the non-uniform scalar loop:
`ln.replace(";", " ").strip()`. -/
def scClean (l : Str) : Str := trim (semiToSpace l)

/-- The non-uniform loop of `parse_scalar_field`: clean each line, skip
lines that became empty, parse the remainder as one float, in order. -/
def parseScalarLines : List Str → Except ParseError (List PyFloat)
  | [] => .ok []
  | ln :: rest =>
    let c := scClean ln
    if c.isEmpty then parseScalarLines rest
    else do
      let x ← floatOf c
      let xs ← parseScalarLines rest
      pure (x :: xs)

/-- Token list of the uniform branches:
`data_lines[0].strip().strip("()").split()`. -/
def uniTokens (v : Str) : List Str := splitWS (stripParens (trim v))

/-- Embedding of `parse_scalar_field` (on an already-read line list):
uniform branch takes `float` of the first token of the uniform value text
(unguarded `[0]` indexing gives `indexError` on an empty token list),
ignoring any further tokens; non-uniform branch runs `parseScalarLines`. -/
def parse_scalar_field (lines : List Str) : Except ParseError (List PyFloat) :=
  match parse_internal_field_lines lines with
  | .error e => .error e
  | .ok (dataLines, true) =>
    match dataLines with
    | [] => .error .indexError
    | v :: _ =>
      match uniTokens v with
      | [] => .error .indexError
      | t :: _ =>
        match parseFloat? t with
        | none => .error .malformedNumber
        | some x => .ok [x]
  | .ok (dataLines, false) => parseScalarLines dataLines

/-- Cleaning step of the non-uniform vector loop:
`ln.strip().rstrip(";")` then one layer of parentheses when present. -/
def vecClean (l : Str) : Str := stripOuterParens (rstripSemi (trim l))

/-- Token list of a non-uniform vector data line. -/
def vecToks (l : Str) : List Str := splitWS (vecClean l)

/-- The non-uniform loop of `parse_vector_field`: clean each line, require
exactly 3 tokens, parse each as a float, collect the triples in order. -/
def parseVectorLines : List Str → Except ParseError (List (PyFloat × PyFloat × PyFloat))
  | [] => .ok []
  | ln :: rest =>
    match vecToks ln with
    | [a, b, c] => do
      let x ← floatOf a
      let y ← floatOf b
      let z ← floatOf c
      let vs ← parseVectorLines rest
      pure ((x, y, z) :: vs)
    | _ => .error .arityMismatch

/-- Embedding of `parse_vector_field` (on an already-read line list):
uniform branch requires exactly 3 tokens of the uniform value text and
parses each as a float; non-uniform branch runs `parseVectorLines`. -/
def parse_vector_field (lines : List Str) : Except ParseError (List (PyFloat × PyFloat × PyFloat)) :=
  match parse_internal_field_lines lines with
  | .error e => .error e
  | .ok (dataLines, true) =>
    match dataLines with
    | [] => .error .indexError
    | v :: _ =>
      match uniTokens v with
      | [a, b, c] => do
        let x ← floatOf a
        let y ← floatOf b
        let z ← floatOf c
        pure [(x, y, z)]
      | _ => .error .arityMismatch
  | .ok (dataLines, false) => parseVectorLines dataLines

/-- Observer: did the parse succeed with a `Uniform` classification? -/
def isUniformResult : Except ParseError (List Str × Bool) → Bool
  | .ok (_, true) => true
  | _ => false

/-! ### Helper lemmas about the string primitives -/

theorem dropWhile_dropWhile (p : Char → Bool) (l : List Char) :
    (l.dropWhile p).dropWhile p = l.dropWhile p := by
  induction l with
  | nil => rfl
  | cons c rest ih =>
    by_cases h : p c = true
    · simp [List.dropWhile_cons, h, ih]
    · simp [List.dropWhile_cons, h]

theorem head?_dropWhile (p : Char → Bool) (l : List Char) (c : Char)
    (h : (l.dropWhile p).head? = some c) : p c = false := by
  induction l with
  | nil => simp [List.dropWhile] at h
  | cons a rest ih =>
    by_cases hp : p a = true
    · rw [List.dropWhile_cons, if_pos hp] at h
      exact ih h
    · rw [List.dropWhile_cons, if_neg hp] at h
      simp only [List.head?_cons, Option.some.injEq] at h
      rw [← h]
      exact Bool.not_eq_true _ ▸ hp

theorem dropRightWhile_dropRightWhile (p : Char → Bool) (s : Str) :
    dropRightWhile p (dropRightWhile p s) = dropRightWhile p s := by
  simp [dropRightWhile, List.reverse_reverse, dropWhile_dropWhile]

theorem dropRightWhile_prefix (p : Char → Bool) (s : Str) :
    dropRightWhile p s <+: s := by
  have h : s.reverse.dropWhile p <:+ s.reverse := List.dropWhile_suffix p
  have h2 := List.reverse_prefix.mpr h
  rwa [List.reverse_reverse] at h2

theorem dropWhile_eq_self (p : Char → Bool) (l : List Char)
    (h : ∀ c, l.head? = some c → p c = false) : l.dropWhile p = l := by
  cases l with
  | nil => rfl
  | cons a rest =>
    have := h a rfl
    simp [List.dropWhile_cons, this]

theorem head?_trim_not_space (s : Str) (c : Char)
    (h : (trim s).head? = some c) : isSpace c = false := by
  have hpre : trim s <+: s.dropWhile isSpace := dropRightWhile_prefix _ _
  obtain ⟨t, ht⟩ := hpre
  have hh : (s.dropWhile isSpace).head? = some c := by
    rw [← ht]
    cases hA : trim s with
    | nil => rw [hA] at h; simp at h
    | cons a as =>
      rw [hA] at h
      simp only [List.head?_cons, Option.some.injEq] at h
      simp [h]
  exact head?_dropWhile isSpace s c hh

theorem trim_trim (s : Str) : trim (trim s) = trim s := by
  have h1 : (trim s).dropWhile isSpace = trim s :=
    dropWhile_eq_self _ _ (fun c hc => head?_trim_not_space s c hc)
  have h2 : dropRightWhile isSpace (trim s) = trim s := by
    unfold trim
    exact dropRightWhile_dropRightWhile _ _
  calc trim (trim s)
      = dropRightWhile isSpace ((trim s).dropWhile isSpace) := rfl
    _ = dropRightWhile isSpace (trim s) := by rw [h1]
    _ = trim s := h2

/-! ### Helper lemmas about the collection loop -/

theorem collectData_eq (s : List Str) :
    collectData s =
      ((s.takeWhile (fun l => !isTermLine (trim l))).map trim).filter keepLine := by
  induction s with
  | nil => rfl
  | cons l rest ih =>
    by_cases ht : isTermLine (trim l) = true
    · simp [collectData, List.takeWhile_cons, ht]
    · have ht' : isTermLine (trim l) = false := by
        cases hb : isTermLine (trim l)
        · rfl
        · exact absurd hb ht
      by_cases hk : ((trim l).isEmpty || isCommentLine (trim l)) = true
      · have : keepLine (trim l) = false := by simp [keepLine, hk]
        simp [collectData, List.takeWhile_cons, ht', hk, ih, List.filter_cons, this]
      · have : keepLine (trim l) = true := by
          simp only [keepLine, Bool.not_eq_true', ← Bool.not_eq_true]
          exact hk
        simp [collectData, List.takeWhile_cons, ht', hk, ih, List.filter_cons, this]

theorem collectData_no_term (s : List Str)
    (h : ∀ l ∈ s, isTermLine (trim l) = false) :
    collectData s = (s.map trim).filter keepLine := by
  rw [collectData_eq]
  have : s.takeWhile (fun l => !isTermLine (trim l)) = s := by
    rw [List.takeWhile_eq_self_iff]
    intro l hl
    simp [h l hl]
  rw [this]

/-! ### Claim C8 -/

/-- C8: inside a non-uniform data block, lines that are empty after
trimming and lines whose trimmed content begins with `//` are excluded
from the collected data lines (hence contribute no parsed entries), and
every other line before the terminator is kept, trimmed of surrounding
whitespace only. -/
theorem C8_collect_skips (s : List Str) :
    collectData s =
      ((s.takeWhile (fun l => !isTermLine (trim l))).map trim).filter keepLine :=
  collectData_eq s

/-! ### Claim C9 -/

/-- C9: every parse is a deterministic pure function of its input line
sequence; two invocations on the same input yield identical results
(the embedded functions consult no state besides their arguments,
mirroring the source functions, which read no mutable globals). -/
theorem C9_deterministic (lines : List Str) :
    parse_internal_field_lines lines = parse_internal_field_lines lines
    ∧ parse_scalar_field lines = parse_scalar_field lines
    ∧ parse_vector_field lines = parse_vector_field lines :=
  ⟨rfl, rfl, rfl⟩

/-! ### Claim C10 -/

/-- C10: on a uniform line whose value text is empty once semicolons,
whitespace and parentheses are gone (`internalField uniform ;`), scalar
extraction hits the unguarded `vstr.split()[0]` indexing and fails with
an index error, not with a number-parse (`MalformedNumber`) failure. -/
theorem C10_uniform_empty_index_error :
    parse_scalar_field [("internalField uniform ;".toList)]
        = .error .indexError
    ∧ ParseError.indexError ≠ ParseError.malformedNumber :=
  ⟨by decide, by decide⟩

/-! ### Claim C3 -/

/-- C3: the first line containing the internal-field marker is classified
`Uniform` exactly when it contains the uniform-marker substring and does
not contain the non-uniform-marker substring; in particular a line
containing the non-uniform marker is never classified `Uniform`, even
though the uniform substring occurs inside it as an infix. -/
theorem C3_uniform_classification (lines : List Str) (line : Str) (rest : List Str)
    (h : findFrom containsMarker lines = some (line, rest)) :
    isUniformResult (parse_internal_field_lines lines)
        = (hasSubstr uniformMark line && !hasSubstr nonuniformMark line)
    ∧ (hasSubstr nonuniformMark line = true →
        isUniformResult (parse_internal_field_lines lines) = false) := by
  have hmain : isUniformResult (parse_internal_field_lines lines)
      = (hasSubstr uniformMark line && !hasSubstr nonuniformMark line) := by
    unfold parse_internal_field_lines
    rw [h]
    by_cases hb : (hasSubstr uniformMark line && !hasSubstr nonuniformMark line) = true
    · simp [hb, isUniformResult]
    · have hb' : (hasSubstr uniformMark line && !hasSubstr nonuniformMark line) = false := by
        cases hx : (hasSubstr uniformMark line && !hasSubstr nonuniformMark line)
        · rfl
        · exact absurd hx hb
      simp only [hb', Bool.false_eq_true, if_false]
      rcases hfc : findFrom isCountLine (line :: rest) with _ | ⟨c, ac⟩
      · simp [hfc, isUniformResult]
      · rcases hfo : findFrom isOpenLine ac with _ | ⟨o, ao⟩
        · simp [hfc, hfo, isUniformResult]
        · simp [hfc, hfo, isUniformResult]
  refine ⟨hmain, fun hn => ?_⟩
  rw [hmain, hn]
  simp

/-- Witness for C3 at a synthetic line combining both markers: despite the
uniform substring occurring (inside `nonuniform`), the line is not
classified `Uniform`. -/
theorem C3_classification_witness :
    isUniformResult
      (parse_internal_field_lines [("internalField nonuniform uniform 1;".toList)])
        = false := by
  have h := C3_uniform_classification
    [("internalField nonuniform uniform 1;".toList)]
    ("internalField nonuniform uniform 1;".toList) [] (by decide)
  exact h.2 (by decide)

/-! ### Claim C1 -/

/-- C1 counterexample: a non-uniform block whose closing delimiter is
missing does not fail; the parse returns the lines collected up to end of
input (the source has no `MissingCloseDelimiter` branch: its collection
loop simply runs off the end of the file). -/
theorem C1_missing_close_counterexample :
    parse_internal_field_lines
        [("internalField nonuniform List<scalar>;".toList),
         ("2".toList), ("(".toList), ("0.1".toList), ("0.2".toList)]
      = .ok ([("0.1".toList), ("0.2".toList)], false) := by decide

/-- C1 (amended): if end of input is reached while collecting non-uniform
data lines without any terminator line (trimmed `)` or `);`), the parse
succeeds, returning exactly the collected lines (all remaining lines,
trimmed, minus blanks and comments) instead of failing. -/
theorem C1_missing_close_lenient
    (lines : List Str) (line : Str) (rest : List Str) (c : Str)
    (afterCount : List Str) (o : Str) (afterOpen : List Str)
    (h1 : findFrom containsMarker lines = some (line, rest))
    (h2 : (hasSubstr uniformMark line && !hasSubstr nonuniformMark line) = false)
    (h3 : findFrom isCountLine (line :: rest) = some (c, afterCount))
    (h4 : findFrom isOpenLine afterCount = some (o, afterOpen))
    (h5 : ∀ l ∈ afterOpen, isTermLine (trim l) = false) :
    parse_internal_field_lines lines
      = .ok ((afterOpen.map trim).filter keepLine, false) := by
  unfold parse_internal_field_lines
  rw [h1]
  simp only [h2, Bool.false_eq_true, if_false, h3, h4]
  rw [collectData_no_term afterOpen h5]

/-- Witness for C1's amended statement on a concrete truncated file. -/
theorem C1_missing_close_witness :
    parse_internal_field_lines
        [("internalField nonuniform List<scalar>;".toList),
         ("3".toList), ("(".toList), ("7.5".toList)]
      = .ok ([("7.5".toList)], false) := by
  have h := C1_missing_close_lenient
    [("internalField nonuniform List<scalar>;".toList),
     ("3".toList), ("(".toList), ("7.5".toList)]
    ("internalField nonuniform List<scalar>;".toList)
    [("3".toList), ("(".toList), ("7.5".toList)]
    ("3".toList) [("(".toList), ("7.5".toList)]
    ("(".toList) [("7.5".toList)]
    (by decide) (by decide) (by decide) (by decide) (by decide)
  exact h.trans (by decide)

/-! ### Claim C2 -/

/-- C2 counterexample: a non-uniform scalar file declaring 3 entries but
holding 2 parses successfully to the bare two-element value list; the
result carries no count metadata and no anomaly report of any kind (the
source never even parses the declared count's value). -/
theorem C2_count_counterexample :
    parse_scalar_field
        [("internalField nonuniform List<scalar>;".toList),
         ("3".toList), ("(".toList), ("0.1".toList), ("0.2".toList), (")".toList)]
      = .ok [(.finite 1 (-1)), (.finite 2 (-1))]
    ∧ ([((.finite 1 (-1)) : PyFloat), (.finite 2 (-1))].length ≠ natOfDigits ("3".toList)) :=
  ⟨by decide, by decide⟩

/-- C2 (amended): when the number of parsed entries differs from the
declared count the parse still succeeds, but no `CountAnomaly` (or any
other metadata) is surfaced: the declared-count line's value is never
read or compared, so the result is the same whatever digit string the
count line holds, and a mismatch is silently tolerated. -/
theorem C2_count_ignored (c : Str) (ds : List Str) (hc : isCountLine c = true) :
    parse_internal_field_lines
        (("internalField nonuniform List<scalar>;".toList)
          :: c :: ("(".toList) :: ds)
      = .ok (collectData ds, false) := by
  unfold parse_internal_field_lines
  simp +decide [findFrom, hc]

/-- Witness for C2's amended statement: declared count 3, two data lines,
still a plain success whose value ignores the count. -/
theorem C2_count_witness :
    isCountLine ("3".toList) = true
    ∧ parse_internal_field_lines
        [("internalField nonuniform List<scalar>;".toList),
         ("3".toList), ("(".toList), ("10.5".toList), ("11".toList), (")".toList)]
      = .ok ([("10.5".toList), ("11".toList)], false) :=
  ⟨by decide,
   (C2_count_ignored ("3".toList)
      [("10.5".toList), ("11".toList), (")".toList)] (by decide)).trans (by decide)⟩

/-! ### Helper lemmas about the non-uniform scalar loop -/

theorem parseScalarLines_cons_skip (l : Str) (rest : List Str)
    (he : (scClean l).isEmpty = true) :
    parseScalarLines (l :: rest) = parseScalarLines rest := by
  simp [parseScalarLines, he]

theorem parseScalarLines_cons_ok (l : Str) (rest : List Str) (x : PyFloat)
    (he : (scClean l).isEmpty = false)
    (hx : parseFloat? (scClean l) = some x) :
    parseScalarLines (l :: rest)
      = (parseScalarLines rest).map (fun xs => x :: xs) := by
  rcases hr : parseScalarLines rest with e | xs <;>
    simp [parseScalarLines, he, floatOf, hx, hr, Except.map, Bind.bind, Except.bind,
      Pure.pure, Except.pure]

theorem parseScalarLines_cons_bad (l : Str) (rest : List Str)
    (he : (scClean l).isEmpty = false)
    (hb : parseFloat? (scClean l) = none) :
    parseScalarLines (l :: rest) = .error .malformedNumber := by
  simp [parseScalarLines, he, floatOf, hb, Bind.bind, Except.bind]

theorem parseScalarLines_all_ok (ds : List Str)
    (h : ∀ l ∈ ds, (scClean l).isEmpty = true ∨ (parseFloat? (scClean l)).isSome = true) :
    parseScalarLines ds =
      .ok (((ds.map scClean).filter (fun c => !c.isEmpty)).map
            (fun c => (parseFloat? c).getD (.finite 0 0))) := by
  induction ds with
  | nil => rfl
  | cons l rest ih =>
    have hrest := fun l' hl' => h l' (List.mem_cons_of_mem _ hl')
    by_cases he : (scClean l).isEmpty = true
    · rw [parseScalarLines_cons_skip l rest he, ih hrest]
      simp [List.filter_cons, he]
    · have he' : (scClean l).isEmpty = false := by
        cases hb : (scClean l).isEmpty
        · rfl
        · exact absurd hb he
      have hs : (parseFloat? (scClean l)).isSome = true := by
        rcases h l (List.mem_cons_self l rest) with h1 | h2
        · exact absurd h1 he
        · exact h2
      obtain ⟨x, hx⟩ := Option.isSome_iff_exists.mp hs
      rw [parseScalarLines_cons_ok l rest x he' hx, ih hrest]
      simp [List.filter_cons, he', hx, Except.map]

theorem parseScalarLines_malformed (pre : List Str) (l : Str) (post : List Str)
    (hpre : ∀ p ∈ pre, (scClean p).isEmpty = true ∨ (parseFloat? (scClean p)).isSome = true)
    (hne : (scClean l).isEmpty = false)
    (hbad : parseFloat? (scClean l) = none) :
    parseScalarLines (pre ++ l :: post) = .error .malformedNumber := by
  induction pre with
  | nil => exact parseScalarLines_cons_bad l post hne hbad
  | cons p pre' ih =>
    have hpre' := fun q hq => hpre q (List.mem_cons_of_mem _ hq)
    by_cases he : (scClean p).isEmpty = true
    · rw [List.cons_append, parseScalarLines_cons_skip p _ he]
      exact ih hpre'
    · have he' : (scClean p).isEmpty = false := by
        cases hb : (scClean p).isEmpty
        · rfl
        · exact absurd hb he
      have hs : (parseFloat? (scClean p)).isSome = true := by
        rcases hpre p (List.mem_cons_self p pre') with h1 | h2
        · exact absurd h1 he
        · exact h2
      obtain ⟨x, hx⟩ := Option.isSome_iff_exists.mp hs
      rw [List.cons_append, parseScalarLines_cons_ok p _ x he' hx, ih hpre']
      simp [Except.map]

/-! ### Helper lemmas about the non-uniform vector loop -/

/-- The triple a good vector data line denotes (per-line semantics of the
non-uniform vector loop). -/
def tupleOf (l : Str) : PyFloat × PyFloat × PyFloat :=
  match vecToks l with
  | [a, b, c] =>
    ((parseFloat? a).getD (.finite 0 0), (parseFloat? b).getD (.finite 0 0), (parseFloat? c).getD (.finite 0 0))
  | _ => ((.finite 0 0), (.finite 0 0), (.finite 0 0))

/-- A vector data line the loop accepts: exactly 3 tokens, all valid floats. -/
def goodVec (l : Str) : Prop :=
  (vecToks l).length = 3 ∧ ∀ t ∈ vecToks l, (parseFloat? t).isSome = true

instance (l : Str) : Decidable (goodVec l) := by
  unfold goodVec
  infer_instance

theorem parseVectorLines_cons_good (p : Str) (rest : List Str) (hp : goodVec p) :
    parseVectorLines (p :: rest)
      = (parseVectorLines rest).map (fun vs => tupleOf p :: vs) := by
  obtain ⟨hlen, hall⟩ := hp
  rcases hv : vecToks p with _ | ⟨a, _ | ⟨b, _ | ⟨c, tl⟩⟩⟩
  · rw [hv] at hlen; simp at hlen
  · rw [hv] at hlen; simp at hlen
  · rw [hv] at hlen; simp at hlen
  · have htl : tl = [] := by
      rw [hv] at hlen
      simpa using List.length_eq_zero.mp (by simpa using hlen)
    subst htl
    have ha : (parseFloat? a).isSome = true := hall a (by rw [hv]; simp)
    have hb : (parseFloat? b).isSome = true := hall b (by rw [hv]; simp)
    have hc : (parseFloat? c).isSome = true := hall c (by rw [hv]; simp)
    obtain ⟨xa, hxa⟩ := Option.isSome_iff_exists.mp ha
    obtain ⟨xb, hxb⟩ := Option.isSome_iff_exists.mp hb
    obtain ⟨xc, hxc⟩ := Option.isSome_iff_exists.mp hc
    rcases hr : parseVectorLines rest with e | vs <;>
      simp [parseVectorLines, hv, floatOf, hxa, hxb, hxc, hr, tupleOf, Except.map,
        Bind.bind, Except.bind, Pure.pure, Except.pure]

theorem parseVectorLines_cons_arity (l : Str) (rest : List Str)
    (hl : (vecToks l).length ≠ 3) :
    parseVectorLines (l :: rest) = .error .arityMismatch := by
  rcases hv : vecToks l with _ | ⟨a, _ | ⟨b, _ | ⟨c, _ | ⟨d, tl⟩⟩⟩⟩
  · simp [parseVectorLines, hv]
  · simp [parseVectorLines, hv]
  · simp [parseVectorLines, hv]
  · exact absurd (by rw [hv]; rfl) hl
  · simp [parseVectorLines, hv]

theorem parseVectorLines_cons_bad (l : Str) (rest : List Str)
    (hlen : (vecToks l).length = 3)
    (hbad : ∃ t ∈ vecToks l, parseFloat? t = none) :
    parseVectorLines (l :: rest) = .error .malformedNumber := by
  rcases hv : vecToks l with _ | ⟨a, _ | ⟨b, _ | ⟨c, tl⟩⟩⟩
  · rw [hv] at hlen; simp at hlen
  · rw [hv] at hlen; simp at hlen
  · rw [hv] at hlen; simp at hlen
  · have htl : tl = [] := by
      rw [hv] at hlen
      simpa using List.length_eq_zero.mp (by simpa using hlen)
    subst htl
    rw [hv] at hbad
    rcases hpa : parseFloat? a with _ | xa
    · simp [parseVectorLines, hv, floatOf, hpa, Bind.bind, Except.bind]
    · rcases hpb : parseFloat? b with _ | xb
      · simp [parseVectorLines, hv, floatOf, hpa, hpb, Bind.bind, Except.bind]
      · rcases hpc : parseFloat? c with _ | xc
        · simp [parseVectorLines, hv, floatOf, hpa, hpb, hpc, Bind.bind, Except.bind]
        · exfalso
          rcases hbad with ⟨t, ht, hnone⟩
          simp only [List.mem_cons, List.not_mem_nil, or_false] at ht
          rcases ht with rfl | rfl | rfl
          · rw [hnone] at hpa; exact Option.noConfusion hpa
          · rw [hnone] at hpb; exact Option.noConfusion hpb
          · rw [hnone] at hpc; exact Option.noConfusion hpc

theorem parseVectorLines_all_ok (ds : List Str) (h : ∀ l ∈ ds, goodVec l) :
    parseVectorLines ds = .ok (ds.map tupleOf) := by
  induction ds with
  | nil => rfl
  | cons l rest ih =>
    have hrest := fun l' hl' => h l' (List.mem_cons_of_mem _ hl')
    rw [parseVectorLines_cons_good l rest (h l (List.mem_cons_self l rest)), ih hrest]
    simp [Except.map]

theorem parseVectorLines_arity (pre : List Str) (l : Str) (post : List Str)
    (hpre : ∀ p ∈ pre, goodVec p)
    (hl : (vecToks l).length ≠ 3) :
    parseVectorLines (pre ++ l :: post) = .error .arityMismatch := by
  induction pre with
  | nil => exact parseVectorLines_cons_arity l post hl
  | cons p pre' ih =>
    have hpre' := fun q hq => hpre q (List.mem_cons_of_mem _ hq)
    rw [List.cons_append, parseVectorLines_cons_good p _ (hpre p (List.mem_cons_self p pre')),
      ih hpre']
    simp [Except.map]

theorem parseVectorLines_malformed (pre : List Str) (l : Str) (post : List Str)
    (hpre : ∀ p ∈ pre, goodVec p)
    (hlen : (vecToks l).length = 3)
    (hbad : ∃ t ∈ vecToks l, parseFloat? t = none) :
    parseVectorLines (pre ++ l :: post) = .error .malformedNumber := by
  induction pre with
  | nil => exact parseVectorLines_cons_bad l post hlen hbad
  | cons p pre' ih =>
    have hpre' := fun q hq => hpre q (List.mem_cons_of_mem _ hq)
    rw [List.cons_append, parseVectorLines_cons_good p _ (hpre p (List.mem_cons_self p pre')),
      ih hpre']
    simp [Except.map]

/-! ### Claim C6 -/

/-- Modelled from the spec (refinement comparison for claim C6): the
claim's per-line cleaning of a non-uniform scalar data line — strip
trailing `;` and whitespace only (the source instead replaces every `;`
by a space before stripping). -/
def specScalarClean (s : Str) : Str :=
  dropRightWhile (fun c => c == ';' || isSpace c) s

/-- C6 counterexample: the data line `;0.5` is unchanged by the claim's
cleaning (no trailing `;` or whitespace) and is not a valid float, so the
claim requires a `MalformedNumber` failure; the source instead replaces
the interior `;` by a space and succeeds with `[0.5]`. -/
theorem C6_nonuniform_scalar_counterexample :
    parse_scalar_field
        [("internalField nonuniform List<scalar>;".toList),
         ("1".toList), ("(".toList), (";0.5".toList), (")".toList)]
      = .ok [(.finite 5 (-1))]
    ∧ specScalarClean (";0.5".toList) = (";0.5".toList)
    ∧ parseFloat? (";0.5".toList) = none :=
  ⟨by decide, by decide, by decide⟩

/-- C6 (amended): in a non-uniform scalar parse each raw data line has
every `;` replaced by a space and surrounding whitespace stripped; lines
that become empty are skipped; every remaining line is parsed as a single
float, failing with `MalformedNumber` on an invalid one, with results
appended in original file order (so N well-formed value lines give a
length-N result). -/
theorem C6_nonuniform_scalar (lines : List Str) (ds : List Str)
    (h : parse_internal_field_lines lines = .ok (ds, false)) :
    ((∀ l ∈ ds, (scClean l).isEmpty = true ∨ (parseFloat? (scClean l)).isSome = true) →
      parse_scalar_field lines =
        .ok (((ds.map scClean).filter (fun c => !c.isEmpty)).map
              (fun c => (parseFloat? c).getD (.finite 0 0))))
    ∧ (∀ pre l post, ds = pre ++ l :: post →
        (∀ p ∈ pre, (scClean p).isEmpty = true ∨ (parseFloat? (scClean p)).isSome = true) →
        (scClean l).isEmpty = false → parseFloat? (scClean l) = none →
        parse_scalar_field lines = .error .malformedNumber) := by
  have hps : parse_scalar_field lines = parseScalarLines ds := by
    unfold parse_scalar_field
    rw [h]
  constructor
  · intro hall
    rw [hps]
    exact parseScalarLines_all_ok ds hall
  · intro pre l post hds hpre hne hbad
    rw [hps, hds]
    exact parseScalarLines_malformed pre l post hpre hne hbad

/-- Witness for C6 on the spec's example: count `3`, lines
`(`, `0.1`, `0.2`, `0.3`, `)` give `[0.1, 0.2, 0.3]`, of length 3;
and on an `inf`/`nan` file, whose lines Python's `float()` accepts, so
the parse succeeds exactly as the program does. -/
theorem C6_nonuniform_scalar_witness :
    parse_scalar_field
        [("internalField nonuniform List<scalar>;".toList),
         ("3".toList), ("(".toList),
         ("0.1".toList), ("0.2".toList), ("0.3".toList), (")".toList)]
      = .ok [(.finite 1 (-1)), (.finite 2 (-1)), (.finite 3 (-1))]
    ∧ [((.finite 1 (-1)) : PyFloat), (.finite 2 (-1)), (.finite 3 (-1))].length = natOfDigits ("3".toList)
    ∧ parse_scalar_field
        [("internalField nonuniform List<scalar>;".toList),
         ("2".toList), ("(".toList), ("inf".toList), ("nan".toList), (")".toList)]
      = .ok [.inf false, .nan]
    ∧ PyFloat.toRat (.finite 1 (-1)) = some (1 / 10)
    ∧ PyFloat.toRat (.finite 2 (-1)) = some (2 / 10)
    ∧ PyFloat.toRat (.finite 3 (-1)) = some (3 / 10) := by
  refine ⟨?_, by decide, ?_, ?_, ?_, ?_⟩
  · exact ((C6_nonuniform_scalar _
      [("0.1".toList), ("0.2".toList), ("0.3".toList)]
      (by decide)).1 (by decide)).trans (by decide)
  · exact ((C6_nonuniform_scalar _
      [("inf".toList), ("nan".toList)]
      (by decide)).1 (by decide)).trans (by decide)
  · norm_num [PyFloat.toRat]
  · norm_num [PyFloat.toRat]
  · norm_num [PyFloat.toRat]

/-! ### Claim C7 -/

/-- C7: in a non-uniform vector parse each data line — trimmed, trailing
semicolons stripped, and exactly one leading and one trailing parenthesis
stripped when the line both starts with `(` and ends with `)` — must
split into exactly 3 whitespace-separated tokens (`ArityMismatch`
otherwise), each parsing as a float (`MalformedNumber` otherwise), and
the triples are produced in original order; parenthesized `(x y z)` and
bare `x y z` lines are both accepted. -/
theorem C7_nonuniform_vector (lines : List Str) (ds : List Str)
    (h : parse_internal_field_lines lines = .ok (ds, false)) :
    ((∀ l ∈ ds, goodVec l) → parse_vector_field lines = .ok (ds.map tupleOf))
    ∧ (∀ pre l post, ds = pre ++ l :: post →
        (∀ p ∈ pre, goodVec p) → (vecToks l).length ≠ 3 →
        parse_vector_field lines = .error .arityMismatch)
    ∧ (∀ pre l post, ds = pre ++ l :: post →
        (∀ p ∈ pre, goodVec p) → (vecToks l).length = 3 →
        (∃ t ∈ vecToks l, parseFloat? t = none) →
        parse_vector_field lines = .error .malformedNumber) := by
  have hpv : parse_vector_field lines = parseVectorLines ds := by
    unfold parse_vector_field
    rw [h]
  refine ⟨fun hall => ?_, fun pre l post hds hpre hl => ?_, fun pre l post hds hpre hlen hbad => ?_⟩
  · rw [hpv]
    exact parseVectorLines_all_ok ds hall
  · rw [hpv, hds]
    exact parseVectorLines_arity pre l post hpre hl
  · rw [hpv, hds]
    exact parseVectorLines_malformed pre l post hpre hlen hbad

/-- Witness for C7 on a file mixing a parenthesized line `(1 2 3)` and a
bare line `4 5 6;` (both accepted, triples in file order), and on a file
whose lines hold `nan` and signed-infinity components, which Python's
`float()` accepts, so the parse succeeds exactly as the program does. -/
theorem C7_nonuniform_vector_witness :
    parse_vector_field
        [("internalField nonuniform List<vector>;".toList),
         ("2".toList), ("(".toList),
         ("(1 2 3)".toList), ("4 5 6;".toList), (");".toList)]
      = .ok [((.finite 1 0), (.finite 2 0), (.finite 3 0)), ((.finite 4 0), (.finite 5 0), (.finite 6 0))]
    ∧ parse_vector_field
        [("internalField nonuniform List<vector>;".toList),
         ("2".toList), ("(".toList),
         ("(1 nan 3)".toList), ("inf -inf 0;".toList), (");".toList)]
      = .ok [((.finite 1 0), .nan, (.finite 3 0)), (.inf false, .inf true, (.finite 0 0))]
    ∧ PyFloat.toRat (.finite 1 0) = some 1 ∧ PyFloat.toRat (.finite 0 0) = some 0 := by
  refine ⟨?_, ?_, ?_, ?_⟩
  · exact ((C7_nonuniform_vector _
      [("(1 2 3)".toList), ("4 5 6;".toList)]
      (by decide)).1 (by decide)).trans (by decide)
  · exact ((C7_nonuniform_vector _
      [("(1 nan 3)".toList), ("inf -inf 0;".toList)]
      (by decide)).1 (by decide)).trans (by decide)
  · norm_num [PyFloat.toRat]
  · norm_num [PyFloat.toRat]

/-! ### Claim C4 -/

/-- Modelled from the spec (refinement comparison for claim C4): the
uniform value text per the claim's words — the text after the uniform
marker with a trailing statement terminator `;` and surrounding
whitespace stripped (the source instead replaces every `;` by a space). -/
def specUniformValueText (line : Str) : Str :=
  trim (rstripSemi (trim (afterFirst uniformMark line)))

/-- Modelled from the spec (refinement comparison for claim C4): the
whitespace tokens of the uniform value text after stripping enclosing
parenthesis characters. -/
def specUniformTokens (line : Str) : List Str :=
  splitWS (stripParens (specUniformValueText line))

/-- C4 counterexample: on the line `internalField uniform 4;2` the
claim's first token is `4;2` (the `;` is interior, not trailing), which
is not a valid float, so the claim requires `MalformedNumber`; the source
replaces the `;` by a space and succeeds with `[4.0]`. -/
theorem C4_uniform_scalar_counterexample :
    parse_scalar_field [("internalField uniform 4;2".toList)] = .ok [(.finite 4 0)]
    ∧ specUniformTokens ("internalField uniform 4;2".toList) = [("4;2".toList)]
    ∧ parseFloat? ("4;2".toList) = none :=
  ⟨by decide, by decide, by decide⟩

/-- C4 (amended): for a line classified Uniform, scalar extraction
returns a one-element sequence holding the float value of the first
whitespace token of the text after the uniform marker, once every `;`
has been replaced by a space, surrounding whitespace trimmed and
enclosing parenthesis characters stripped; extra tokens after the first
are ignored; an invalid first token fails with `MalformedNumber`, and an
absent first token with an index error. -/
theorem C4_uniform_scalar (lines : List Str) (line : Str) (rest : List Str)
    (h1 : findFrom containsMarker lines = some (line, rest))
    (h2 : (hasSubstr uniformMark line && !hasSubstr nonuniformMark line) = true) :
    parse_scalar_field lines =
      match splitWS (stripParens (trim (semiToSpace (afterFirst uniformMark line)))) with
      | [] => .error .indexError
      | t :: _ =>
        match parseFloat? t with
        | none => .error .malformedNumber
        | some x => .ok [x] := by
  have hp : parse_internal_field_lines lines
      = .ok ([trim (semiToSpace (afterFirst uniformMark line))], true) := by
    unfold parse_internal_field_lines
    rw [h1]
    simp [h2]
  unfold parse_scalar_field
  rw [hp]
  simp only [uniTokens, trim_trim]

/-- Witness for C4 on the spec's example `internalField   uniform 4.2;`,
whose extraction is `[4.2]` (the token `4.2`, value 21/5), and on
`internalField uniform inf;`, whose token `inf` Python's `float()`
accepts, so extraction succeeds with the infinite value, exactly as the
program does. -/
theorem C4_uniform_scalar_witness :
    parse_scalar_field [("internalField   uniform 4.2;".toList)] = .ok [(.finite 42 (-1))]
    ∧ parse_scalar_field [("internalField uniform inf;".toList)] = .ok [.inf false]
    ∧ PyFloat.toRat (.finite 42 (-1)) = some (21 / 5) := by
  refine ⟨?_, ?_, ?_⟩
  · exact (C4_uniform_scalar [("internalField   uniform 4.2;".toList)]
      ("internalField   uniform 4.2;".toList) [] (by decide) (by decide)).trans (by decide)
  · exact (C4_uniform_scalar [("internalField uniform inf;".toList)]
      ("internalField uniform inf;".toList) [] (by decide) (by decide)).trans (by decide)
  · norm_num [PyFloat.toRat]

/-! ### Claim C5 -/

/-- C5: for a uniform block parsed with vector arity, extraction requires
exactly 3 whitespace-separated tokens of the value text after stripping
enclosing parentheses, failing with `ArityMismatch` otherwise; each token
must parse as a float, failing with `MalformedNumber` otherwise; a valid
input yields the single parsed triple. -/
theorem C5_uniform_vector (lines : List Str) (v : Str)
    (h : parse_internal_field_lines lines = .ok ([v], true)) :
    ((uniTokens v).length ≠ 3 → parse_vector_field lines = .error .arityMismatch)
    ∧ (∀ a b c, uniTokens v = [a, b, c] →
        (∀ x y z, parseFloat? a = some x → parseFloat? b = some y → parseFloat? c = some z →
          parse_vector_field lines = .ok [(x, y, z)])
        ∧ ((parseFloat? a = none ∨ parseFloat? b = none ∨ parseFloat? c = none) →
          parse_vector_field lines = .error .malformedNumber)) := by
  refine ⟨fun hlen => ?_,
    fun a b c habc => ⟨fun x y z hx hy hz => ?_, fun hbad => ?_⟩⟩
  · unfold parse_vector_field
    rw [h]
    rcases hv : uniTokens v with _ | ⟨a, _ | ⟨b, _ | ⟨c, _ | ⟨d, tl⟩⟩⟩⟩
    · simp [hv]
    · simp [hv]
    · simp [hv]
    · exact absurd (by rw [hv]; rfl) hlen
    · simp [hv]
  · unfold parse_vector_field
    rw [h]
    simp [habc, floatOf, hx, hy, hz, Bind.bind, Except.bind, Pure.pure, Except.pure]
  · unfold parse_vector_field
    rw [h]
    rcases hpa : parseFloat? a with _ | xa
    · simp [habc, floatOf, hpa, Bind.bind, Except.bind]
    · rcases hpb : parseFloat? b with _ | xb
      · simp [habc, floatOf, hpa, hpb, Bind.bind, Except.bind]
      · rcases hpc : parseFloat? c with _ | xc
        · simp [habc, floatOf, hpa, hpb, hpc, Bind.bind, Except.bind]
        · exfalso
          rcases hbad with h0 | h0 | h0
          · rw [h0] at hpa; exact Option.noConfusion hpa
          · rw [h0] at hpb; exact Option.noConfusion hpb
          · rw [h0] at hpc; exact Option.noConfusion hpc

/-- Witness for C5 on the spec's example `internalField   uniform (1 0 0);`,
which yields the single triple `(1.0, 0.0, 0.0)`, and on
`internalField uniform (1 nan 0);`, whose `nan` token Python's `float()`
accepts, so extraction succeeds with `(1.0, nan, 0.0)`, exactly as the
program does. -/
theorem C5_uniform_vector_witness :
    parse_vector_field [("internalField   uniform (1 0 0);".toList)]
      = .ok [((.finite 1 0), (.finite 0 0), (.finite 0 0))]
    ∧ parse_vector_field [("internalField uniform (1 nan 0);".toList)]
      = .ok [((.finite 1 0), .nan, (.finite 0 0))]
    ∧ PyFloat.toRat (.finite 1 0) = some 1 ∧ PyFloat.toRat (.finite 0 0) = some 0 := by
  refine ⟨?_, ?_, ?_, ?_⟩
  · exact (((C5_uniform_vector [("internalField   uniform (1 0 0);".toList)]
      ("(1 0 0)".toList) (by decide)).2
      ("1".toList) ("0".toList) ("0".toList) (by decide)).1
      (.finite 1 0) (.finite 0 0) (.finite 0 0) (by decide) (by decide) (by decide))
  · exact (((C5_uniform_vector [("internalField uniform (1 nan 0);".toList)]
      ("(1 nan 0)".toList) (by decide)).2
      ("1".toList) ("nan".toList) ("0".toList) (by decide)).1
      (.finite 1 0) .nan (.finite 0 0) (by decide) (by decide) (by decide))
  · norm_num [PyFloat.toRat]
  · norm_num [PyFloat.toRat]

end CsvConversion
